import Mathlib

/-!
Verification of the header/column detection and normalization core of
autoAmortize (src/main.py) against its specification.

The Python code is shallowly embedded: each function of main.py becomes a
Lean definition over `List Char` / `List` data.  The calls into
`pandas.to_datetime` are modelled by `pd_parse` below, which reproduces the
tokenisation and year/month/day resolution that pandas (>= 2.0, format
inference backed by dateutil-style resolution and strptime century rules)
performs on the label shapes reachable from this program.
-/

set_option maxRecDepth 4096

namespace AutoAmortize

/-- A calendar date `(year, month, day)` as produced by
`pd.to_datetime` / `datetime.datetime`. -/
structure Date where
  year : Nat
  month : Nat
  day : Nat
deriving DecidableEq, Repr

/-- A column label of the loaded dataframe: either a text label or a label
already parsed as a native datetime (as pandas produces for date-typed
header cells, and as `parse_month_cols` writes back into the header). -/
inductive ColLabel where
  | str (s : String)
  | dt (d : Date)
deriving DecidableEq, Repr

/-! ## Character-level helpers -/

/-- Separator characters accepted between date components: the character
class "dash, slash or whitespace" of the regex on line 33 of main.py, and
the separators skipped by the date tokenizer. -/
def isSepChar (c : Char) : Bool := c = '-' || c = '/' || c.isWhitespace

/-- Numeric value of a digit character. -/
def charVal (c : Char) : Nat := c.toNat - '0'.toNat

/-- Value of a digit string, most significant digit first (Python `int`). -/
def digitsVal (cs : List Char) : Nat := cs.foldl (fun a c => 10 * a + charVal c) 0

/-- Python `str.strip()`: remove leading and trailing whitespace. -/
def pyStrip (cs : List Char) : List Char :=
  ((cs.dropWhile Char.isWhitespace).reverse.dropWhile Char.isWhitespace).reverse

/-! ## Model of `pandas.to_datetime` on strings

`pd.to_datetime(s, dayfirst=b)` lexes `s` into alphabetic and numeric
tokens (separators `-`, `/`, whitespace are delimiters; digit and letter
runs split each other), recognises month names, resolves the numeric
tokens to (year, month, day) following dateutil's `_ymd.resolve` rules
with `yearfirst=False`, applies the POSIX two-digit-year century rule
(00-68 -> 2000s, 69-99 -> 1900s, the strptime `%y` rule that pandas >= 2.0
applies through its inferred-format path), and validates the result as
`datetime.datetime` would.  Any failure is a parse error (`none`). -/

inductive Tok where
  | num (val : Nat) (len : Nat)
  | alpha (s : List Char)
deriving DecidableEq, Repr

def tokenize : List Char → Option (List Tok)
  | [] => some []
  | c :: cs =>
    if isSepChar c then tokenize cs
    else if c.isDigit then
      (tokenize (cs.dropWhile Char.isDigit)).map
        (fun ts => Tok.num (digitsVal (c :: cs.takeWhile Char.isDigit))
                           (c :: cs.takeWhile Char.isDigit).length :: ts)
    else if c.isAlpha then
      (tokenize (cs.dropWhile Char.isAlpha)).map
        (fun ts => Tok.alpha (c :: cs.takeWhile Char.isAlpha) :: ts)
    else none
termination_by cs => cs.length
decreasing_by
  · simp only [List.length_cons]
    exact Nat.lt_succ_of_le (Nat.le_refl _)
  · simp only [List.length_cons]
    exact Nat.lt_succ_of_le (List.Sublist.length_le (List.dropWhile_sublist _))
  · simp only [List.length_cons]
    exact Nat.lt_succ_of_le (List.Sublist.length_le (List.dropWhile_sublist _))

/-- Month-name table of the parser (dateutil `parserinfo.MONTHS`):
three-letter abbreviations and full names, case-insensitive. -/
def monthNameTable : List (String × Nat) :=
  [("jan", 1), ("january", 1), ("feb", 2), ("february", 2),
   ("mar", 3), ("march", 3), ("apr", 4), ("april", 4),
   ("may", 5), ("jun", 6), ("june", 6), ("jul", 7), ("july", 7),
   ("aug", 8), ("august", 8), ("sep", 9), ("sept", 9), ("september", 9),
   ("oct", 10), ("october", 10), ("nov", 11), ("november", 11),
   ("dec", 12), ("december", 12)]

def monthFromName (s : List Char) : Option Nat :=
  (monthNameTable.find? (fun p => p.1 == String.mk (s.map Char.toLower))).map (·.2)

/-- A member of dateutil's `_ymd` candidate list: a numeric token (with its
digit count) or a recognised month name. -/
inductive Entry where
  | n (v : Nat) (len : Nat)
  | m (v : Nat)
deriving DecidableEq, Repr

/-- Translate tokens to `_ymd` entries; an alphabetic token that is not a
month name makes the whole parse fail. -/
def tokensToEntries : List Tok → Option (List Entry)
  | [] => some []
  | Tok.num v l :: ts => (tokensToEntries ts).map (fun es => Entry.n v l :: es)
  | Tok.alpha s :: ts =>
    match monthFromName s with
    | some m => (tokensToEntries ts).map (fun es => Entry.m m :: es)
    | none => none

/-- dateutil marks the century as explicitly given when some numeric token
has three or more digits. -/
def centurySpecified (es : List Entry) : Bool :=
  es.any fun e => match e with | Entry.n _ l => 3 ≤ l | Entry.m _ => false

/-- dateutil `_ymd.resolve_ymd` with `yearfirst=False`: assign the
candidates to `(year?, month?, day?)`. -/
def resolveYMD (dayfirst : Bool) : List Entry → Option (Option Nat × Option Nat × Option Nat)
  | [] => none
  | [Entry.m mo] => some (none, some mo, none)
  | [Entry.n v _] =>
    if 31 < v then some (some v, none, none) else some (none, none, some v)
  | [Entry.m mo, Entry.n v _] | [Entry.n v _, Entry.m mo] =>
    if 31 < v then some (some v, some mo, none) else some (none, some mo, some v)
  | [Entry.n a _, Entry.n b _] =>
    if 31 < a then some (some a, some b, none)
    else if 31 < b then some (some b, some a, none)
    else if dayfirst && b ≤ 12 then some (none, some b, some a)
    else some (none, some a, some b)
  | [Entry.m mo, Entry.n a _, Entry.n b _] =>
    if 31 < a then some (some a, some mo, some b)
    else some (some b, some mo, some a)
  | [Entry.n a _, Entry.m mo, Entry.n b _] =>
    if 31 < a then some (some a, some mo, some b)
    else some (some b, some mo, some a)
  | [Entry.n a _, Entry.n b _, Entry.m mo] =>
    if 31 < b then some (some b, some mo, some a)
    else some (some a, some mo, some b)
  | [Entry.n a la, Entry.n b _, Entry.n c _] =>
    if 31 < a || 3 ≤ la then
      (if dayfirst && c ≤ 12 then some (some a, some c, some b)
       else some (some a, some b, some c))
    else if 12 < a || (dayfirst && b ≤ 12) then some (some c, some b, some a)
    else some (some c, some a, some b)
  | _ => none

/-- POSIX / strptime `%y` century rule: 00-68 -> 2000s, 69-99 -> 1900s. -/
def posixYear (n : Nat) : Nat := if n ≤ 68 then 2000 + n else 1900 + n

def isLeapYear (y : Nat) : Bool := y % 4 = 0 && (y % 100 ≠ 0 || y % 400 = 0)

def daysInMonth (y m : Nat) : Nat :=
  if m = 2 then (if isLeapYear y then 29 else 28)
  else if m = 4 || m = 6 || m = 9 || m = 11 then 30
  else 31

/-- The model of `pd.to_datetime(s, dayfirst)` on a string.  Missing
components default to year 1900, month 1, day 1 (the strptime defaults;
no input reachable from the claims below leaves the year unset). -/
def pd_parse (dayfirst : Bool) (cs : List Char) : Option Date :=
  match tokenize cs with
  | none => none
  | some toks =>
    match tokensToEntries toks with
    | none => none
    | some es =>
      match resolveYMD dayfirst es with
      | none => none
      | some (yRaw, moRaw, dRaw) =>
        let year := match yRaw with
          | some v => if centurySpecified es || 100 ≤ v then v else posixYear v
          | none => 1900
        let month := moRaw.getD 1
        let day := dRaw.getD 1
        if 1 ≤ year && year ≤ 9999 && 1 ≤ month && month ≤ 12 &&
           1 ≤ day && day ≤ daysInMonth year month
        then some ⟨year, month, day⟩ else none

/-! ## The two regexes of `is_month_column` -/

/-- `re.fullmatch(r'([A-Za-z]{3,9})(\d{2,4})', s)` (line 27 of main.py):
split into the maximal alphabetic prefix and the digit remainder and check
the length bounds. -/
def compactSplit (cs : List Char) : Option (List Char × List Char) :=
  let a := cs.takeWhile Char.isAlpha
  let r := cs.dropWhile Char.isAlpha
  if 3 ≤ a.length && a.length ≤ 9 && 2 ≤ r.length && r.length ≤ 4 &&
     r.all Char.isDigit
  then some (a, r) else none

/-- Exactly 2-4 digit characters: the final `\d{2,4}` segment. -/
def matchYear (cs : List Char) : Bool :=
  cs.all Char.isDigit && 2 ≤ cs.length && cs.length ≤ 4

/-- Consume exactly `n` digit characters. -/
def dropDigits : Nat → List Char → Option (List Char)
  | 0, cs => some cs
  | _ + 1, [] => none
  | n + 1, c :: cs => if c.isDigit then dropDigits n cs else none

/-- Consume exactly `n` alphabetic characters. -/
def dropAlpha : Nat → List Char → Option (List Char)
  | 0, cs => some cs
  | _ + 1, [] => none
  | n + 1, c :: cs => if c.isAlpha then dropAlpha n cs else none

/-- An optional separator then 2-4 digits, to the end of the string. -/
def afterMid (cs : List Char) : Bool :=
  matchYear cs ||
    (match cs with
     | c :: t => isSepChar c && matchYear t
     | [] => false)

/-- The middle segment (1-2 digits or 3-9 letters), an optional separator
and the final 2-4 digits, to the end of the string. -/
def matchMid (cs : List Char) : Bool :=
  ([1, 2].any fun n =>
    match dropDigits n cs with
    | some r => afterMid r
    | none => false) ||
  ([3, 4, 5, 6, 7, 8, 9].any fun n =>
    match dropAlpha n cs with
    | some r => afterMid r
    | none => false)

/-- An optional separator then `matchMid`, to the end of the string. -/
def afterDay (cs : List Char) : Bool :=
  matchMid cs ||
    (match cs with
     | c :: t => isSepChar c && matchMid t
     | [] => false)

/-- The full-date regex of line 33 of main.py (1-2 digits, optional
separator, 1-2 digits or 3-9 letters, optional separator, 2-4 digits),
as a full match: the existence of a decomposition of the string. -/
def full_date_match (cs : List Char) : Bool :=
  [1, 2].any fun n =>
    match dropDigits n cs with
    | some r => afterDay r
    | none => false

/-! ## `is_month_column` (main.py lines 21-47) -/

/-- `col.replace(" ", "-").replace("/", "-")` (line 25). -/
def cleanChars (cs : List Char) : List Char :=
  (cs.map fun c => if c = ' ' then '-' else c).map fun c => if c = '/' then '-' else c

/-- The Cell Classifier `is_month_column` of main.py: `some d` models
`return True` after writing the normalized datetime `d = (year, month, 1)`
into the header, `none` models the `except`/`return False` path. -/
def is_month_column (col : ColLabel) : Option Date :=
  match col with
  | ColLabel.dt d => some ⟨d.year, d.month, 1⟩
  | ColLabel.str s =>
    let cleaned := cleanChars s.data
    let clean := match compactSplit cleaned with
      | some (a, r) => a ++ '-' :: r
      | none => cleaned
    match (if full_date_match (pyStrip s.data)
           then pd_parse true (pyStrip s.data)
           else pd_parse true ('0' :: '1' :: '-' :: clean)) with
    | some d => some ⟨d.year, d.month, 1⟩
    | none => none

/-- The target-month parsing of `main` (main.py lines 114-116):
`pd.to_datetime("01-" + target.strip())`, with the default
`dayfirst=False` and no cleanup, no compact-format rewriting and no
normalization to the first of the month. -/
def parse_target (s : String) : Option Date :=
  pd_parse false ('0' :: '1' :: '-' :: pyStrip s.data)

/-! ## `detect_header_row` (main.py lines 9-18)

The raw grid is a list of rows; a cell is `none` for a missing value
(pandas `NaN`, filtered by `pd.notna`) and `some s` for the textual cell
content (the raw read uses `dtype=str`). -/

/-- The header keyword set of line 11. -/
def expected_keywords : List String := ["items", "invoice", "amount"]

/-- Python substring containment `needle in hay`. -/
def isSubstr : List Char → List Char → Bool
  | needle, [] => needle.isEmpty
  | needle, c :: t => needle.isPrefixOf (c :: t) || isSubstr needle t

/-- One cell of a row: present and, lower-cased, containing some keyword
as a substring. -/
def cellMatches : Option String → Bool
  | none => false
  | some s => expected_keywords.any fun k => isSubstr k.data (s.data.map Char.toLower)

/-- The inner loops of `detect_header_row`: some keyword occurs in some
non-missing cell of the row. -/
def rowMatches (row : List (Option String)) : Bool := row.any cellMatches

/-- `detect_header_row`: index of the first row containing a keyword,
`none` when no row does (the Python `return None`). -/
def detect_header_row : List (List (Option String)) → Option Nat
  | [] => none
  | r :: rs => if rowMatches r then some 0 else (detect_header_row rs).map (· + 1)

/-! ## The loaded table and `read_excel_file` (main.py lines 56-78) -/

/-- The dataframe produced by the second (typed) read: column labels and
rows of optional cells. -/
structure Table where
  cols : List ColLabel
  rows : List (List (Option String))
deriving DecidableEq, Repr

/-- pandas `KeyError`, raised by `df.dropna(subset=["Items"])` when no
column is labeled exactly `"Items"` and re-raised by `read_excel_file`. -/
inductive NormError where
  | keyError
deriving DecidableEq, Repr

deriving instance DecidableEq for Except

/-- Position of the column labeled exactly `"Items"`
(`df.dropna(subset=["Items"])` looks the label up verbatim). -/
def itemsIdx : List ColLabel → Option Nat
  | [] => none
  | c :: cs =>
    if c = ColLabel.str "Items" then some 0 else (itemsIdx cs).map (· + 1)

/-- The row-cleanup of `read_excel_file` (lines 71-75): drop rows that are
entirely missing (`dropna(how='all')`), then drop rows whose `"Items"`
cell is missing (`dropna(subset=["Items"])`, a `KeyError` if the column
does not exist); `reset_index` renumbers and is the identity here. -/
def normalize_table (t : Table) : Except NormError Table :=
  let r1 := t.rows.filter fun r => r.any (·.isSome)
  match itemsIdx t.cols with
  | none => Except.error NormError.keyError
  | some j => Except.ok ⟨t.cols, r1.filter fun r => (r.getD j none).isSome⟩

/-- Rows that are entirely missing (dropped by `dropna(how='all')`). -/
def countFullyEmpty (t : Table) : Nat :=
  (t.rows.filter fun r => r.all (·.isNone)).length

/-- Rows whose `"Items"` cell (column `j`) is missing. -/
def countItemsEmpty (t : Table) (j : Nat) : Nat :=
  (t.rows.filter fun r => (r.getD j none).isNone).length

/-- Rows that are not entirely missing but whose `"Items"` cell is. -/
def countItemsEmptyNonBlank (t : Table) (j : Nat) : Nat :=
  (t.rows.filter fun r => r.any (·.isSome) && (r.getD j none).isNone).length

/-! ## `parse_month_cols` (main.py lines 20-54) -/

/-- The indices whose column label `is_month_column` classifies as a
month (the list comprehension on line 50, in index order). -/
def month_indices (cols : List ColLabel) : List Nat :=
  (List.range cols.length).filter fun i =>
    (is_month_column (cols.getD i (ColLabel.str ""))).isSome

/-- `parse_month_cols` return value: `(month_indices[0], month_indices[-1])`,
or the `ValueError` (modelled as `Except.error ()`) when no column
classifies as a month. -/
def parse_month_cols (cols : List ColLabel) : Except Unit (Nat × Nat) :=
  match month_indices cols with
  | [] => Except.error ()
  | i :: rest => Except.ok (i, rest.getLastD i)

/-- The label rewrite performed inside `is_month_column` (line 44):
a recognized label is overwritten with the normalized datetime, an
unrecognized one is left unchanged. -/
def rewrite_label (c : ColLabel) : ColLabel :=
  match is_month_column c with
  | some d => ColLabel.dt d
  | none => c

/-- `parse_month_cols` acting on a whole table: the returned index range
together with the table as it stands afterwards (labels rewritten in
place, rows untouched). -/
def parse_month_cols_table (t : Table) : Except Unit ((Nat × Nat) × Table) :=
  match parse_month_cols t.cols with
  | Except.error e => Except.error e
  | Except.ok p => Except.ok (p, ⟨t.cols.map rewrite_label, t.rows⟩)

/-! ## The `main` pipeline around header detection (main.py lines 56-110) -/

/-- Result of `read_excel_file`: `noHeader` is the `print` + bare `return`
(the caller receives `None`), `failed` a propagated exception, `loaded`
the cleaned dataframe.  `reload` stands for the second
`pd.read_excel(file_path, header=header_row)` pass over the same file. -/
inductive LoadResult where
  | noHeader
  | failed (e : NormError)
  | loaded (t : Table)
deriving DecidableEq, Repr

def read_excel_file (raw : List (List (Option String))) (reload : Nat → Table) :
    LoadResult :=
  match detect_header_row raw with
  | none => LoadResult.noHeader
  | some h =>
    match normalize_table (reload h) with
    | Except.error e => LoadResult.failed e
    | Except.ok t => LoadResult.loaded t

/-- What `main` does with the value returned by `read_excel_file`
(lines 100-110).  When the header was not found, `read_excel_file`
returned `None`; `main` does not check for it and immediately calls
`parse_month_cols(df)`, whose `df.columns` dereference on `None` raises
`AttributeError` — an uncaught crash.  A propagated `KeyError` is also
uncaught in `main`. -/
inductive MainOutcome where
  | crashAttributeError
  | crashKeyError
  | proceeded (t : Table)
deriving DecidableEq, Repr

def main_after_load : LoadResult → MainOutcome
  | LoadResult.noHeader => MainOutcome.crashAttributeError
  | LoadResult.failed _ => MainOutcome.crashKeyError
  | LoadResult.loaded t => MainOutcome.proceeded t

/-- The year value the parser derives from the year-position digit token:
taken verbatim when the century is explicit (3+ digits, or value >= 100),
otherwise put through the two-digit century rule. -/
def yearFromDigits (ds : List Char) : Nat :=
  if 3 ≤ ds.length || 100 ≤ digitsVal ds then digitsVal ds
  else posixYear (digitsVal ds)

/-! ## Renderings of a calendar month used to state the claims -/

/-- Canonical three-letter month abbreviation. -/
def monthAbbrev : Nat → String
  | 1 => "Jan"
  | 2 => "Feb"
  | 3 => "Mar"
  | 4 => "Apr"
  | 5 => "May"
  | 6 => "Jun"
  | 7 => "Jul"
  | 8 => "Aug"
  | 9 => "Sep"
  | 10 => "Oct"
  | 11 => "Nov"
  | 12 => "Dec"
  | _ => ""

/-- Two-digit zero-padded decimal rendering of a number below 100. -/
def pad2 (n : Nat) : List Char := [Nat.digitChar (n / 10), Nat.digitChar (n % 10)]

/-! ## Character-class lemmas -/

theorem sep_not_digit {c : Char} (h : isSepChar c = true) : c.isDigit = false := by
  simp only [isSepChar, Char.isWhitespace, Bool.or_eq_true, decide_eq_true_eq] at h
  rcases h with (h | h) | ((h | h) | h) | h <;> subst h <;> decide

theorem sep_not_alpha {c : Char} (h : isSepChar c = true) : c.isAlpha = false := by
  simp only [isSepChar, Char.isWhitespace, Bool.or_eq_true, decide_eq_true_eq] at h
  rcases h with (h | h) | ((h | h) | h) | h <;> subst h <;> decide

theorem digit_not_sep {c : Char} (h : c.isDigit = true) : isSepChar c = false := by
  cases hs : isSepChar c
  · rfl
  · rw [sep_not_digit hs] at h; exact absurd h (by simp)

theorem alpha_not_sep {c : Char} (h : c.isAlpha = true) : isSepChar c = false := by
  cases hs : isSepChar c
  · rfl
  · rw [sep_not_alpha hs] at h; exact absurd h (by simp)

theorem digit_not_alpha {c : Char} (h : c.isDigit = true) : c.isAlpha = false := by
  simp only [Char.isDigit, Bool.and_eq_true, decide_eq_true_eq] at h
  rcases Bool.eq_false_or_eq_true c.isAlpha with ha | ha
  · exfalso
    simp only [Char.isAlpha, Char.isUpper, Char.isLower, Bool.or_eq_true,
      Bool.and_eq_true, decide_eq_true_eq] at ha
    rcases ha with ⟨h1, _⟩ | ⟨h1, _⟩
    · exact absurd (Nat.le_trans h1 h.2) (by decide)
    · exact absurd (Nat.le_trans h1 h.2) (by decide)
  · exact ha

theorem alpha_not_digit {c : Char} (h : c.isAlpha = true) : c.isDigit = false := by
  rcases Bool.eq_false_or_eq_true c.isDigit with hd | hd
  · rw [digit_not_alpha hd] at h; exact absurd h (by simp)
  · exact hd

theorem digit_not_ws {c : Char} (h : c.isDigit = true) : c.isWhitespace = false := by
  cases hw : c.isWhitespace
  · rfl
  · have : isSepChar c = true := by simp [isSepChar, hw]
    rw [sep_not_digit this] at h; exact absurd h (by simp)

theorem alpha_not_ws {c : Char} (h : c.isAlpha = true) : c.isWhitespace = false := by
  cases hw : c.isWhitespace
  · rfl
  · have : isSepChar c = true := by simp [isSepChar, hw]
    rw [sep_not_alpha this] at h; exact absurd h (by simp)

theorem digit_ne_space {c : Char} (h : c.isDigit = true) : c ≠ ' ' := by
  rintro rfl; revert h; decide

theorem digit_ne_slash {c : Char} (h : c.isDigit = true) : c ≠ '/' := by
  rintro rfl; revert h; decide

theorem alpha_ne_space {c : Char} (h : c.isAlpha = true) : c ≠ ' ' := by
  rintro rfl; revert h; decide

theorem alpha_ne_slash {c : Char} (h : c.isAlpha = true) : c ≠ '/' := by
  rintro rfl; revert h; decide

/-! ## Run lemmas for takeWhile, dropWhile, strip and clean -/

theorem takeWhile_append_run (p : Char → Bool) :
    ∀ (l r : List Char), (∀ c ∈ l, p c = true) →
      (∀ c, r.head? = some c → p c = false) →
      (l ++ r).takeWhile p = l := by
  intro l r hl hr
  induction l with
  | nil =>
    cases r with
    | nil => rfl
    | cons c t => simp [List.takeWhile_cons, hr c rfl]
  | cons a l ih =>
    have ha : p a = true := hl a (by simp)
    simp only [List.cons_append, List.takeWhile_cons, ha, if_true]
    rw [ih (fun c hc => hl c (by simp [hc]))]

theorem dropWhile_append_run (p : Char → Bool) :
    ∀ (l r : List Char), (∀ c ∈ l, p c = true) →
      (∀ c, r.head? = some c → p c = false) →
      (l ++ r).dropWhile p = r := by
  intro l r hl hr
  induction l with
  | nil =>
    cases r with
    | nil => rfl
    | cons c t => simp [List.dropWhile_cons, hr c rfl]
  | cons a l ih =>
    have ha : p a = true := hl a (by simp)
    simp only [List.cons_append, List.dropWhile_cons, ha, if_true]
    exact ih (fun c hc => hl c (by simp [hc]))

theorem dropWhile_all_neg (p : Char → Bool) :
    ∀ l : List Char, (∀ c ∈ l, p c = false) → l.dropWhile p = l := by
  intro l hl
  cases l with
  | nil => rfl
  | cons a l => simp [List.dropWhile_cons, hl a (by simp)]

theorem pyStrip_eq_self {cs : List Char} (h : ∀ c ∈ cs, c.isWhitespace = false) :
    pyStrip cs = cs := by
  unfold pyStrip
  rw [dropWhile_all_neg _ _ h,
      dropWhile_all_neg _ _ (fun c hc => h c (List.mem_reverse.mp hc)),
      List.reverse_reverse]

theorem cleanChars_eq_self :
    ∀ cs : List Char, (∀ c ∈ cs, c ≠ ' ' ∧ c ≠ '/') → cleanChars cs = cs := by
  intro cs h
  induction cs with
  | nil => rfl
  | cons a l ih =>
    have ha := h a (by simp)
    have h1 : (if a = ' ' then '-' else a) = a := if_neg ha.1
    simp only [cleanChars, List.map_cons, h1, if_neg ha.2]
    have := ih (fun c hc => h c (by simp [hc]))
    simp only [cleanChars] at this
    rw [this]

/-! ## Tokenizer lemmas -/

theorem tokenize_nil : tokenize [] = some [] := by rw [tokenize.eq_def]

theorem tokenize_sep {c : Char} (h : isSepChar c = true) (cs : List Char) :
    tokenize (c :: cs) = tokenize cs := by
  rw [tokenize.eq_def]
  simp only [h, if_true]

theorem tokenize_digits (ds rest : List Char)
    (hne : ds ≠ []) (hd : ∀ c ∈ ds, c.isDigit = true)
    (hr : ∀ c, rest.head? = some c → c.isDigit = false) :
    tokenize (ds ++ rest) =
      (tokenize rest).map (fun ts => Tok.num (digitsVal ds) ds.length :: ts) := by
  cases ds with
  | nil => exact absurd rfl hne
  | cons d dt =>
    have hdd : d.isDigit = true := hd d (by simp)
    have htl : ∀ c ∈ dt, c.isDigit = true := fun c hc => hd c (by simp [hc])
    rw [List.cons_append, tokenize.eq_def]
    simp only [digit_not_sep hdd, hdd, if_true, Bool.false_eq_true, if_false,
      takeWhile_append_run _ dt rest htl hr, dropWhile_append_run _ dt rest htl hr]

theorem tokenize_alpha (as rest : List Char)
    (hne : as ≠ []) (ha : ∀ c ∈ as, c.isAlpha = true)
    (hr : ∀ c, rest.head? = some c → c.isAlpha = false) :
    tokenize (as ++ rest) =
      (tokenize rest).map (fun ts => Tok.alpha as :: ts) := by
  cases as with
  | nil => exact absurd rfl hne
  | cons a at_ =>
    have haa : a.isAlpha = true := ha a (by simp)
    have htl : ∀ c ∈ at_, c.isAlpha = true := fun c hc => ha c (by simp [hc])
    rw [List.cons_append, tokenize.eq_def]
    simp only [alpha_not_sep haa, alpha_not_digit haa, haa, if_true,
      Bool.false_eq_true, if_false,
      takeWhile_append_run _ at_ rest htl hr, dropWhile_append_run _ at_ rest htl hr]

/-! ## Month-name table facts -/

theorem monthFromName_range {s : List Char} {m : Nat} (h : monthFromName s = some m) :
    1 ≤ m ∧ m ≤ 12 := by
  unfold monthFromName at h
  cases hf : monthNameTable.find? (fun p => p.1 == String.mk (s.map Char.toLower)) with
  | none => rw [hf] at h; simp at h
  | some p =>
    rw [hf] at h
    simp only [Option.map_some'] at h
    have hm : p ∈ monthNameTable := List.mem_of_find?_eq_some hf
    have hb : ∀ q ∈ monthNameTable, 1 ≤ q.2 ∧ q.2 ≤ 12 := by decide
    obtain rfl : p.2 = m := Option.some.inj h
    exact hb p hm

/-! ## pd_parse computation lemmas -/

theorem daysInMonth_pos (y m : Nat) : 1 ≤ daysInMonth y m := by
  unfold daysInMonth
  split
  · split <;> omega
  · split <;> omega

/-- Tokens [day 01, month name, year digits] parse (with either value of
`dayfirst`) to the first of that month and year. -/
theorem pd_parse_tokens_dMy (df : Bool) (cs name : List Char) (m v l yv : Nat)
    (ht : tokenize cs = some [Tok.num 1 2, Tok.alpha name, Tok.num v l])
    (hm : monthFromName name = some m)
    (hyv : yv = if 3 ≤ l || 100 ≤ v then v else posixYear v)
    (hy1 : 1 ≤ yv) (hy2 : yv ≤ 9999) :
    pd_parse df cs = some ⟨yv, m, 1⟩ := by
  obtain ⟨hm1, hm2⟩ := monthFromName_range hm
  have hdm := daysInMonth_pos yv m
  unfold pd_parse
  have he : tokensToEntries [Tok.num 1 2, Tok.alpha name, Tok.num v l] =
      some [Entry.n 1 2, Entry.m m, Entry.n v l] := by
    simp only [tokensToEntries, hm, Option.map_some']
  have hr : resolveYMD df [Entry.n 1 2, Entry.m m, Entry.n v l] =
      some (some v, some m, some 1) := by
    simp [resolveYMD]
  have hc : centurySpecified [Entry.n 1 2, Entry.m m, Entry.n v l] = decide (3 ≤ l) := by
    simp [centurySpecified]
  simp only [ht, he, hr, hc, Option.getD_some]
  by_cases h3 : 3 ≤ l
  · have hyv' : yv = v := by rw [hyv]; simp [h3]
    subst hyv'
    simp [h3, hy1, hy2, hm1, hm2, hdm]
  · by_cases h100 : 100 ≤ v
    · have hyv' : yv = v := by rw [hyv]; simp [h100]
      subst hyv'
      simp [h3, h100, hy1, hy2, hm1, hm2, hdm]
    · have hyv' : yv = posixYear v := by rw [hyv]; simp [h3, h100]
      subst hyv'
      simp [h3, h100, hy1, hy2, hm1, hm2, hdm]

/-- Tokens [month digits, year digits] (month-year labels such as
"05-2024") parse to the first of that month and year. -/
theorem pd_parse_tokens_mY (df : Bool) (cs : List Char) (mv v l yv : Nat)
    (ht : tokenize cs = some [Tok.num mv 2, Tok.num v l])
    (hm1 : 1 ≤ mv) (hm2 : mv ≤ 12) (hv : 31 < v)
    (hyv : yv = if 3 ≤ l || 100 ≤ v then v else posixYear v)
    (hy1 : 1 ≤ yv) (hy2 : yv ≤ 9999) :
    pd_parse df cs = some ⟨yv, mv, 1⟩ := by
  have hdm := daysInMonth_pos yv mv
  have hmv : ¬ 31 < mv := by omega
  unfold pd_parse
  have he : tokensToEntries [Tok.num mv 2, Tok.num v l] =
      some [Entry.n mv 2, Entry.n v l] := by
    simp only [tokensToEntries, Option.map_some']
  have hr : resolveYMD df [Entry.n mv 2, Entry.n v l] =
      some (some v, some mv, none) := by
    simp [resolveYMD, hmv, hv]
  have hc : centurySpecified [Entry.n mv 2, Entry.n v l] = decide (3 ≤ l) := by
    simp [centurySpecified]
  simp only [ht, he, hr, hc, Option.getD_some, Option.getD_none]
  by_cases h3 : 3 ≤ l
  · have hyv' : yv = v := by rw [hyv]; simp [h3]
    subst hyv'
    simp [h3, hy1, hy2, hm1, hm2, hdm]
  · by_cases h100 : 100 ≤ v
    · have hyv' : yv = v := by rw [hyv]; simp [h100]
      subst hyv'
      simp [h3, h100, hy1, hy2, hm1, hm2, hdm]
    · have hyv' : yv = posixYear v := by rw [hyv]; simp [h3, h100]
      subst hyv'
      simp [h3, h100, hy1, hy2, hm1, hm2, hdm]

/-- Tokens [day 01, month digits, year digits] with `dayfirst = true`
(day-first numeric labels such as "01/05/2024") parse to day 1 of that
month and year. -/
theorem pd_parse_tokens_dmY (cs : List Char) (mv v l yv : Nat)
    (ht : tokenize cs = some [Tok.num 1 2, Tok.num mv 2, Tok.num v l])
    (hm1 : 1 ≤ mv) (hm2 : mv ≤ 12)
    (hyv : yv = if 3 ≤ l || 100 ≤ v then v else posixYear v)
    (hy1 : 1 ≤ yv) (hy2 : yv ≤ 9999) :
    pd_parse true cs = some ⟨yv, mv, 1⟩ := by
  have hdm := daysInMonth_pos yv mv
  unfold pd_parse
  have he : tokensToEntries [Tok.num 1 2, Tok.num mv 2, Tok.num v l] =
      some [Entry.n 1 2, Entry.n mv 2, Entry.n v l] := by
    simp only [tokensToEntries, Option.map_some']
  have hr : resolveYMD true [Entry.n 1 2, Entry.n mv 2, Entry.n v l] =
      some (some v, some mv, some 1) := by
    simp [resolveYMD, hm2]
  have hc : centurySpecified [Entry.n 1 2, Entry.n mv 2, Entry.n v l] =
      decide (3 ≤ l) := by
    simp [centurySpecified]
  simp only [ht, he, hr, hc, Option.getD_some]
  by_cases h3 : 3 ≤ l
  · have hyv' : yv = v := by rw [hyv]; simp [h3]
    subst hyv'
    simp [h3, hy1, hy2, hm1, hm2, hdm]
  · by_cases h100 : 100 ≤ v
    · have hyv' : yv = v := by rw [hyv]; simp [h100]
      subst hyv'
      simp [h3, h100, hy1, hy2, hm1, hm2, hdm]
    · have hyv' : yv = posixYear v := by rw [hyv]; simp [h3, h100]
      subst hyv'
      simp [h3, h100, hy1, hy2, hm1, hm2, hdm]

/-! ## Tokenizing the label shapes of the claims -/

theorem tokenize_digit_run (ds : List Char) (hne : ds ≠ [])
    (hd : ∀ c ∈ ds, c.isDigit = true) :
    tokenize ds = some [Tok.num (digitsVal ds) ds.length] := by
  have h := tokenize_digits ds [] hne hd (by intro c hc; simp at hc)
  rw [List.append_nil] at h
  rw [h, tokenize_nil]
  rfl

/-- Tokens of "01-" ++ name ++ "-" ++ digits. -/
theorem tokenize_01_name_sep_ds (name ds : List Char)
    (hna : ∀ c ∈ name, c.isAlpha = true) (hne : name ≠ [])
    (hda : ∀ c ∈ ds, c.isDigit = true) (hdne : ds ≠ []) :
    tokenize ('0' :: '1' :: '-' :: (name ++ '-' :: ds)) =
      some [Tok.num 1 2, Tok.alpha name, Tok.num (digitsVal ds) ds.length] := by
  have e1 : ('0' :: '1' :: '-' :: (name ++ '-' :: ds) : List Char) =
      ['0', '1'] ++ ('-' :: (name ++ '-' :: ds)) := rfl
  rw [e1, tokenize_digits ['0', '1'] _ (by simp) (by decide)
        (by intro c hc; injection hc with hc; subst hc; decide),
      tokenize_sep (by decide),
      tokenize_alpha name ('-' :: ds) hne hna
        (by intro c hc; injection hc with hc; subst hc; decide),
      tokenize_sep (by decide),
      tokenize_digit_run ds hdne hda]
  rfl

/-- Tokens of "01-" ++ name ++ digits (the compact form: the lexer still
splits the letter run from the digit run). -/
theorem tokenize_01_name_ds (name ds : List Char)
    (hna : ∀ c ∈ name, c.isAlpha = true) (hne : name ≠ [])
    (hda : ∀ c ∈ ds, c.isDigit = true) (hdne : ds ≠ []) :
    tokenize ('0' :: '1' :: '-' :: (name ++ ds)) =
      some [Tok.num 1 2, Tok.alpha name, Tok.num (digitsVal ds) ds.length] := by
  have hdig : ∀ c, ds.head? = some c → c.isAlpha = false := by
    intro c hc
    cases ds with
    | nil => simp at hc
    | cons d dt =>
      injection hc with hc; subst hc
      exact digit_not_alpha (hda d (by simp))
  have e1 : ('0' :: '1' :: '-' :: (name ++ ds) : List Char) =
      ['0', '1'] ++ ('-' :: (name ++ ds)) := rfl
  rw [e1, tokenize_digits ['0', '1'] _ (by simp) (by decide)
        (by intro c hc; injection hc with hc; subst hc; decide),
      tokenize_sep (by decide),
      tokenize_alpha name ds hne hna hdig,
      tokenize_digit_run ds hdne hda]
  rfl

/-! ## Regex-match lemmas -/

theorem full_date_match_head_not_digit {cs : List Char}
    (h : ∀ c, cs.head? = some c → c.isDigit = false) :
    full_date_match cs = false := by
  cases cs with
  | nil => decide
  | cons c t =>
    have hc := h c rfl
    simp [full_date_match, dropDigits, hc]

theorem dropDigits_append : ∀ (a r : List Char), (∀ c ∈ a, c.isDigit = true) →
    dropDigits a.length (a ++ r) = some r := by
  intro a
  induction a with
  | nil => intro r _; rfl
  | cons c t ih =>
    intro r h
    simp only [List.length_cons, List.cons_append, dropDigits, h c (by simp), if_true]
    exact ih r (fun x hx => h x (by simp [hx]))

theorem matchYear_of {c : List Char} (h1 : ∀ x ∈ c, x.isDigit = true)
    (h2 : 2 ≤ c.length) (h3 : c.length ≤ 4) : matchYear c = true := by
  simp [matchYear, List.all_eq_true, h2, h3]
  exact h1

theorem full_date_match_digit3 (a b c : List Char) (s1 s2 : Char)
    (ha : ∀ x ∈ a, x.isDigit = true) (ha1 : 1 ≤ a.length) (ha2 : a.length ≤ 2)
    (hs1 : isSepChar s1 = true)
    (hb : ∀ x ∈ b, x.isDigit = true) (hb1 : 1 ≤ b.length) (hb2 : b.length ≤ 2)
    (hs2 : isSepChar s2 = true)
    (hc : ∀ x ∈ c, x.isDigit = true) (hc2 : 2 ≤ c.length) (hc4 : c.length ≤ 4) :
    full_date_match (a ++ s1 :: (b ++ s2 :: c)) = true := by
  have hmy : matchYear c = true := matchYear_of hc hc2 hc4
  have hamid : afterMid (s2 :: c) = true := by
    rw [afterMid, Bool.or_eq_true]
    right
    simp [hs2, hmy]
  have hmid : matchMid (b ++ s2 :: c) = true := by
    rw [matchMid, Bool.or_eq_true]
    left
    rw [List.any_eq_true]
    refine ⟨b.length, by simp; omega, ?_⟩
    simp only [dropDigits_append b (s2 :: c) hb]
    exact hamid
  have haday : afterDay (s1 :: (b ++ s2 :: c)) = true := by
    rw [afterDay, Bool.or_eq_true]
    right
    simp [hs1, hmid]
  rw [full_date_match, List.any_eq_true]
  refine ⟨a.length, by simp; omega, ?_⟩
  simp only [dropDigits_append a (s1 :: (b ++ s2 :: c)) ha]
  exact haday

theorem full_date_match_digit2 (a b c : List Char) (s1 : Char)
    (ha : ∀ x ∈ a, x.isDigit = true) (ha1 : 1 ≤ a.length) (ha2 : a.length ≤ 2)
    (hs1 : isSepChar s1 = true)
    (hb : ∀ x ∈ b, x.isDigit = true) (hb1 : 1 ≤ b.length) (hb2 : b.length ≤ 2)
    (hc : ∀ x ∈ c, x.isDigit = true) (hc2 : 2 ≤ c.length) (hc4 : c.length ≤ 4) :
    full_date_match (a ++ s1 :: (b ++ c)) = true := by
  have hmy : matchYear c = true := matchYear_of hc hc2 hc4
  have hmid : matchMid (b ++ c) = true := by
    rw [matchMid, Bool.or_eq_true]
    left
    rw [List.any_eq_true]
    refine ⟨b.length, by simp; omega, ?_⟩
    simp only [dropDigits_append b c hb]
    rw [afterMid.eq_def, Bool.or_eq_true]
    left
    exact hmy
  have haday : afterDay (s1 :: (b ++ c)) = true := by
    rw [afterDay, Bool.or_eq_true]
    right
    simp [hs1, hmid]
  rw [full_date_match, List.any_eq_true]
  refine ⟨a.length, by simp; omega, ?_⟩
  simp only [dropDigits_append a (s1 :: (b ++ c)) ha]
  exact haday

/-! ## compactSplit lemmas -/

theorem compactSplit_name_sep (name ds : List Char)
    (hna : ∀ c ∈ name, c.isAlpha = true)
    (hda : ∀ c ∈ ds, c.isDigit = true) :
    compactSplit (name ++ '-' :: ds) = none := by
  unfold compactSplit
  rw [takeWhile_append_run _ name ('-' :: ds) hna
        (by intro c hc; injection hc with hc; subst hc; decide),
      dropWhile_append_run _ name ('-' :: ds) hna
        (by intro c hc; injection hc with hc; subst hc; decide)]
  simp

theorem compactSplit_name_digits (name ds : List Char)
    (hna : ∀ c ∈ name, c.isAlpha = true)
    (h3 : 3 ≤ name.length) (h9 : name.length ≤ 9)
    (hda : ∀ c ∈ ds, c.isDigit = true) (hdne : ds ≠ [])
    (hd2 : 2 ≤ ds.length) (hd4 : ds.length ≤ 4) :
    compactSplit (name ++ ds) = some (name, ds) := by
  have hdig : ∀ c, ds.head? = some c → c.isAlpha = false := by
    intro c hc
    cases ds with
    | nil => simp at hc
    | cons d dt =>
      injection hc with hc; subst hc
      exact digit_not_alpha (hda d (by simp))
  unfold compactSplit
  rw [takeWhile_append_run _ name ds hna hdig,
      dropWhile_append_run _ name ds hna hdig]
  simp [h3, h9, hd2, hd4, List.all_eq_true]
  exact hda

/-! ## The Cell Classifier on the label shapes of the claims -/

/-- The Cell Classifier on labels of the form month-name, "-", digit year
("May-24", "May-2024"): the compact regex does not match, the full-date
regex does not match (alphabetic head), so the label is cleaned, prefixed
with "01-" and parsed day-first. -/
theorem is_month_column_name_sep (name ds : List Char) (m yv : Nat)
    (hna : ∀ c ∈ name, c.isAlpha = true) (hne : name ≠ [])
    (hm : monthFromName name = some m)
    (hda : ∀ c ∈ ds, c.isDigit = true) (hdne : ds ≠ [])
    (hyv : yv = yearFromDigits ds) (hy1 : 1 ≤ yv) (hy2 : yv ≤ 9999) :
    is_month_column (ColLabel.str (String.mk (name ++ '-' :: ds))) =
      some ⟨yv, m, 1⟩ := by
  have hnosp : ∀ c ∈ name ++ '-' :: ds, c ≠ ' ' ∧ c ≠ '/' := by
    intro c hc
    rcases List.mem_append.mp hc with h | h
    · exact ⟨alpha_ne_space (hna c h), alpha_ne_slash (hna c h)⟩
    · rcases List.mem_cons.mp h with rfl | h
      · exact ⟨by decide, by decide⟩
      · exact ⟨digit_ne_space (hda c h), digit_ne_slash (hda c h)⟩
  have hnows : ∀ c ∈ name ++ '-' :: ds, c.isWhitespace = false := by
    intro c hc
    rcases List.mem_append.mp hc with h | h
    · exact alpha_not_ws (hna c h)
    · rcases List.mem_cons.mp h with rfl | h
      · decide
      · exact digit_not_ws (hda c h)
  have hhead : ∀ c, (name ++ '-' :: ds).head? = some c → c.isDigit = false := by
    intro c hc
    cases name with
    | nil => exact absurd rfl hne
    | cons a t =>
      simp only [List.cons_append, List.head?_cons, Option.some.injEq] at hc
      subst hc
      exact alpha_not_digit (hna a (by simp))
  have htok := tokenize_01_name_sep_ds name ds hna hne hda hdne
  have hyv' : yv = if 3 ≤ ds.length || 100 ≤ digitsVal ds then digitsVal ds
      else posixYear (digitsVal ds) := by
    rw [hyv, yearFromDigits]
  have hp := pd_parse_tokens_dMy true ('0' :: '1' :: '-' :: (name ++ '-' :: ds))
      name m (digitsVal ds) ds.length yv htok hm hyv' hy1 hy2
  simp only [is_month_column, cleanChars_eq_self _ hnosp,
    compactSplit_name_sep name ds hna hda, pyStrip_eq_self hnows,
    full_date_match_head_not_digit hhead, Bool.false_eq_true, if_false, hp]

/-- The Cell Classifier on compact labels: month-name directly followed by
a 2-4 digit year ("May24", "May2024"): the compact regex inserts the "-"
and the label then parses like the separated form. -/
theorem is_month_column_name_compact (name ds : List Char) (m yv : Nat)
    (hna : ∀ c ∈ name, c.isAlpha = true) (hne : name ≠ [])
    (h3 : 3 ≤ name.length) (h9 : name.length ≤ 9)
    (hm : monthFromName name = some m)
    (hda : ∀ c ∈ ds, c.isDigit = true) (hdne : ds ≠ [])
    (hd2 : 2 ≤ ds.length) (hd4 : ds.length ≤ 4)
    (hyv : yv = yearFromDigits ds) (hy1 : 1 ≤ yv) (hy2 : yv ≤ 9999) :
    is_month_column (ColLabel.str (String.mk (name ++ ds))) =
      some ⟨yv, m, 1⟩ := by
  have hnosp : ∀ c ∈ name ++ ds, c ≠ ' ' ∧ c ≠ '/' := by
    intro c hc
    rcases List.mem_append.mp hc with h | h
    · exact ⟨alpha_ne_space (hna c h), alpha_ne_slash (hna c h)⟩
    · exact ⟨digit_ne_space (hda c h), digit_ne_slash (hda c h)⟩
  have hnows : ∀ c ∈ name ++ ds, c.isWhitespace = false := by
    intro c hc
    rcases List.mem_append.mp hc with h | h
    · exact alpha_not_ws (hna c h)
    · exact digit_not_ws (hda c h)
  have hhead : ∀ c, (name ++ ds).head? = some c → c.isDigit = false := by
    intro c hc
    cases name with
    | nil => exact absurd rfl hne
    | cons a t =>
      simp only [List.cons_append, List.head?_cons, Option.some.injEq] at hc
      subst hc
      exact alpha_not_digit (hna a (by simp))
  have htok := tokenize_01_name_sep_ds name ds hna hne hda hdne
  have hyv' : yv = if 3 ≤ ds.length || 100 ≤ digitsVal ds then digitsVal ds
      else posixYear (digitsVal ds) := by
    rw [hyv, yearFromDigits]
  have hp := pd_parse_tokens_dMy true ('0' :: '1' :: '-' :: (name ++ '-' :: ds))
      name m (digitsVal ds) ds.length yv htok hm hyv' hy1 hy2
  simp only [is_month_column, cleanChars_eq_self _ hnosp,
    compactSplit_name_digits name ds hna h3 h9 hda hdne hd2 hd4,
    pyStrip_eq_self hnows,
    full_date_match_head_not_digit hhead, Bool.false_eq_true, if_false, hp]

/-- The Cell Classifier on fully numeric day-first labels
"01 sep MM sep YYYY" (e.g. "01/05/2024"): the full-date regex matches,
so the original (stripped) label is parsed day-first. -/
theorem is_month_column_dmy (s1 s2 : Char) (b ys : List Char) (yv : Nat)
    (hs1 : s1 = '-' ∨ s1 = '/') (hs2 : s2 = '-' ∨ s2 = '/')
    (hb : ∀ c ∈ b, c.isDigit = true) (hbl : b.length = 2)
    (hm1 : 1 ≤ digitsVal b) (hm2 : digitsVal b ≤ 12)
    (hys : ∀ c ∈ ys, c.isDigit = true) (hyl2 : 2 ≤ ys.length) (hyl4 : ys.length ≤ 4)
    (hyv : yv = yearFromDigits ys) (hy1 : 1 ≤ yv) (hy2 : yv ≤ 9999) :
    is_month_column (ColLabel.str (String.mk ('0' :: '1' :: s1 :: (b ++ s2 :: ys)))) =
      some ⟨yv, digitsVal b, 1⟩ := by
  have hsep1 : isSepChar s1 = true := by rcases hs1 with rfl | rfl <;> decide
  have hsep2 : isSepChar s2 = true := by rcases hs2 with rfl | rfl <;> decide
  have hbne : b ≠ [] := by intro h; rw [h] at hbl; simp at hbl
  have hyne : ys ≠ [] := by intro h; rw [h] at hyl2; simp at hyl2
  have hnows : ∀ c ∈ ('0' :: '1' :: s1 :: (b ++ s2 :: ys) : List Char),
      c.isWhitespace = false := by
    intro c hc
    rcases List.mem_cons.mp hc with rfl | hc
    · decide
    rcases List.mem_cons.mp hc with rfl | hc
    · decide
    rcases List.mem_cons.mp hc with rfl | hc
    · rcases hs1 with rfl | rfl <;> decide
    rcases List.mem_append.mp hc with hc | hc
    · exact digit_not_ws (hb c hc)
    rcases List.mem_cons.mp hc with rfl | hc
    · rcases hs2 with rfl | rfl <;> decide
    · exact digit_not_ws (hys c hc)
  have hmatch : full_date_match ('0' :: '1' :: s1 :: (b ++ s2 :: ys)) = true :=
    full_date_match_digit3 ['0', '1'] b ys s1 s2 (by decide) (by decide) (by decide)
      hsep1 hb (by omega) (by omega) hsep2 hys hyl2 hyl4
  have htok : tokenize ('0' :: '1' :: s1 :: (b ++ s2 :: ys)) =
      some [Tok.num 1 2, Tok.num (digitsVal b) 2, Tok.num (digitsVal ys) ys.length] := by
    have e1 : ('0' :: '1' :: s1 :: (b ++ s2 :: ys) : List Char) =
        ['0', '1'] ++ (s1 :: (b ++ s2 :: ys)) := rfl
    rw [e1, tokenize_digits ['0', '1'] _ (by simp) (by decide)
          (by intro c hc; injection hc with hc; subst hc; exact sep_not_digit hsep1),
        tokenize_sep hsep1,
        tokenize_digits b (s2 :: ys) hbne hb
          (by intro c hc; injection hc with hc; subst hc; exact sep_not_digit hsep2),
        tokenize_sep hsep2,
        tokenize_digit_run ys hyne hys, hbl]
    rfl
  have hyv' : yv = if 3 ≤ ys.length || 100 ≤ digitsVal ys then digitsVal ys
      else posixYear (digitsVal ys) := by
    rw [hyv, yearFromDigits]
  have hp := pd_parse_tokens_dmY ('0' :: '1' :: s1 :: (b ++ s2 :: ys))
      (digitsVal b) (digitsVal ys) ys.length yv htok hm1 hm2 hyv' hy1 hy2
  simp only [is_month_column, pyStrip_eq_self hnows, hmatch, if_true, hp]

/-- The Cell Classifier on numeric month-year labels "MM sep YYYY"
(e.g. "05-2024"): the full-date regex still matches (the four-digit year
splits as 2+2 digits), and day-first parsing resolves month then year. -/
theorem is_month_column_mY (s1 : Char) (b ys : List Char) (yv : Nat)
    (hs1 : s1 = '-' ∨ s1 = '/')
    (hb : ∀ c ∈ b, c.isDigit = true) (hbl : b.length = 2)
    (hm1 : 1 ≤ digitsVal b) (hm2 : digitsVal b ≤ 12)
    (hys : ∀ c ∈ ys, c.isDigit = true) (hyl : ys.length = 4)
    (hyv : yv = digitsVal ys) (hy31 : 31 < yv) (hy2 : yv ≤ 9999) :
    is_month_column (ColLabel.str (String.mk (b ++ s1 :: ys))) =
      some ⟨yv, digitsVal b, 1⟩ := by
  have hsep1 : isSepChar s1 = true := by rcases hs1 with rfl | rfl <;> decide
  have hbne : b ≠ [] := by intro h; rw [h] at hbl; simp at hbl
  have hyne : ys ≠ [] := by intro h; rw [h] at hyl; simp at hyl
  have hnows : ∀ c ∈ b ++ s1 :: ys, c.isWhitespace = false := by
    intro c hc
    rcases List.mem_append.mp hc with hc | hc
    · exact digit_not_ws (hb c hc)
    rcases List.mem_cons.mp hc with rfl | hc
    · rcases hs1 with rfl | rfl <;> decide
    · exact digit_not_ws (hys c hc)
  have hmatch : full_date_match (b ++ s1 :: ys) = true := by
    conv_lhs => rw [← List.take_append_drop 2 ys]
    refine full_date_match_digit2 b (ys.take 2) (ys.drop 2) s1 hb (by omega) (by omega)
      hsep1 (fun x hx => hys x (List.take_subset _ _ hx)) ?_ ?_
      (fun x hx => hys x (List.drop_subset _ _ hx)) ?_ ?_
    · simp [List.length_take, hyl]
    · simp [List.length_take, hyl]
    · simp [List.length_drop, hyl]
    · simp [List.length_drop, hyl]
  have htok : tokenize (b ++ s1 :: ys) =
      some [Tok.num (digitsVal b) 2, Tok.num (digitsVal ys) ys.length] := by
    rw [tokenize_digits b (s1 :: ys) hbne hb
          (by intro c hc; injection hc with hc; subst hc; exact sep_not_digit hsep1),
        tokenize_sep hsep1,
        tokenize_digit_run ys hyne hys, hbl]
    rfl
  have hyv' : yv = if 3 ≤ ys.length || 100 ≤ digitsVal ys then digitsVal ys
      else posixYear (digitsVal ys) := by
    rw [hyl, hyv]
    simp
  have hp := pd_parse_tokens_mY true (b ++ s1 :: ys)
      (digitsVal b) (digitsVal ys) ys.length yv htok hm1 hm2 (hyv ▸ hy31) hyv'
      (by omega) hy2
  simp only [is_month_column, pyStrip_eq_self hnows, hmatch, if_true, hp]

/-! ## The target-month parsing of `main` on the documented formats -/

/-- `main`'s target parsing on "MMM-YY" / "MMM-YYYY" style input. -/
theorem parse_target_name_sep (name ds : List Char) (m yv : Nat)
    (hna : ∀ c ∈ name, c.isAlpha = true) (hne : name ≠ [])
    (hm : monthFromName name = some m)
    (hda : ∀ c ∈ ds, c.isDigit = true) (hdne : ds ≠ [])
    (hyv : yv = yearFromDigits ds) (hy1 : 1 ≤ yv) (hy2 : yv ≤ 9999) :
    parse_target (String.mk (name ++ '-' :: ds)) = some ⟨yv, m, 1⟩ := by
  have hnows : ∀ c ∈ name ++ '-' :: ds, c.isWhitespace = false := by
    intro c hc
    rcases List.mem_append.mp hc with h | h
    · exact alpha_not_ws (hna c h)
    · rcases List.mem_cons.mp h with rfl | h
      · decide
      · exact digit_not_ws (hda c h)
  have hyv' : yv = if 3 ≤ ds.length || 100 ≤ digitsVal ds then digitsVal ds
      else posixYear (digitsVal ds) := by
    rw [hyv, yearFromDigits]
  unfold parse_target
  simp only [pyStrip_eq_self hnows]
  exact pd_parse_tokens_dMy false _ name m (digitsVal ds) ds.length yv
    (tokenize_01_name_sep_ds name ds hna hne hda hdne) hm hyv' hy1 hy2

/-- `main`'s target parsing on compact "MMMYY" / "MMMYYYY" style input. -/
theorem parse_target_name_compact (name ds : List Char) (m yv : Nat)
    (hna : ∀ c ∈ name, c.isAlpha = true) (hne : name ≠ [])
    (hm : monthFromName name = some m)
    (hda : ∀ c ∈ ds, c.isDigit = true) (hdne : ds ≠ [])
    (hyv : yv = yearFromDigits ds) (hy1 : 1 ≤ yv) (hy2 : yv ≤ 9999) :
    parse_target (String.mk (name ++ ds)) = some ⟨yv, m, 1⟩ := by
  have hnows : ∀ c ∈ name ++ ds, c.isWhitespace = false := by
    intro c hc
    rcases List.mem_append.mp hc with h | h
    · exact alpha_not_ws (hna c h)
    · exact digit_not_ws (hda c h)
  have hyv' : yv = if 3 ≤ ds.length || 100 ≤ digitsVal ds then digitsVal ds
      else posixYear (digitsVal ds) := by
    rw [hyv, yearFromDigits]
  unfold parse_target
  simp only [pyStrip_eq_self hnows]
  exact pd_parse_tokens_dMy false _ name m (digitsVal ds) ds.length yv
    (tokenize_01_name_ds name ds hna hne hda hdne) hm hyv' hy1 hy2

theorem monthAbbrev_facts {m : Nat} (h1 : 1 ≤ m) (h2 : m ≤ 12) :
    (∀ c ∈ (monthAbbrev m).data, c.isAlpha = true) ∧ (monthAbbrev m).data ≠ [] ∧
    3 ≤ (monthAbbrev m).data.length ∧ (monthAbbrev m).data.length ≤ 9 ∧
    monthFromName (monthAbbrev m).data = some m := by
  interval_cases m <;> exact ⟨by decide, by decide, by decide, by decide, by decide⟩

theorem digitChar_spec {d : Nat} (h : d ≤ 9) :
    (Nat.digitChar d).isDigit = true ∧ charVal (Nat.digitChar d) = d := by
  interval_cases d <;> exact ⟨by decide, by decide⟩

theorem pad2_digits {n : Nat} (h : n ≤ 99) : ∀ c ∈ pad2 n, c.isDigit = true := by
  intro c hc
  have h1 := (digitChar_spec (show n / 10 ≤ 9 by omega)).1
  have h2 := (digitChar_spec (show n % 10 ≤ 9 by omega)).1
  rcases List.mem_cons.mp hc with rfl | hc
  · exact h1
  rcases List.mem_cons.mp hc with rfl | hc
  · exact h2
  · simp at hc

theorem pad2_length (n : Nat) : (pad2 n).length = 2 := rfl

theorem pad2_ne (n : Nat) : pad2 n ≠ [] := by simp [pad2]

theorem pad2_val {n : Nat} (h : n ≤ 99) : digitsVal (pad2 n) = n := by
  have h1 := (digitChar_spec (show n / 10 ≤ 9 by omega)).2
  have h2 := (digitChar_spec (show n % 10 ≤ 9 by omega)).2
  simp [pad2, digitsVal, h1, h2]
  omega

/-! ## Structural helper lemmas -/

theorem is_month_column_day_one {c : ColLabel} {d : Date}
    (h : is_month_column c = some d) : d.day = 1 := by
  cases c with
  | dt x =>
    injection h with h
    rw [← h]
  | str s =>
    simp only [is_month_column] at h
    split at h
    · injection h with h; rw [← h]
    · exact Option.noConfusion h

theorem getD_map_lt {α β : Type} (f : α → β) (l : List α) (i : Nat)
    (h : i < l.length) (d : α) (d' : β) :
    (l.map f).getD i d' = f (l.getD i d) := by
  rw [List.getD_eq_getElem?_getD, List.getD_eq_getElem?_getD, List.getElem?_map,
      List.getElem?_eq_getElem h]
  simp

theorem pairwise_head_le {a : Nat} {l : List Nat}
    (h : List.Pairwise (· < ·) (a :: l)) : ∀ x ∈ a :: l, a ≤ x := by
  intro x hx
  rcases List.mem_cons.mp hx with rfl | hx
  · exact Nat.le_refl _
  · exact Nat.le_of_lt ((List.pairwise_cons.mp h).1 x hx)

theorem pairwise_le_getLastD :
    ∀ {l : List Nat} {a : Nat}, List.Pairwise (· < ·) (a :: l) →
      ∀ x ∈ a :: l, x ≤ l.getLastD a := by
  intro l
  induction l with
  | nil =>
    intro a _ x hx
    rcases List.mem_cons.mp hx with rfl | hx
    · simp
    · simp at hx
  | cons b t ih =>
    intro a h x hx
    rw [List.getLastD_cons]
    have hbt : List.Pairwise (· < ·) (b :: t) := (List.pairwise_cons.mp h).2
    rcases List.mem_cons.mp hx with rfl | hx
    · have hab : x < b := (List.pairwise_cons.mp h).1 b (by simp)
      have hb := ih hbt b (by simp)
      omega
    · exact ih hbt x hx

theorem all_isNone_eq_not_any :
    ∀ r : List (Option String), (r.all (·.isNone)) = !(r.any (·.isSome)) := by
  intro r
  induction r with
  | nil => rfl
  | cons o t ih =>
    cases o with
    | none => simp [List.all_cons, List.any_cons, ih]
    | some v => simp [List.all_cons, List.any_cons]

theorem count_split (j : Nat) : ∀ rows : List (List (Option String)),
    ((rows.filter (fun r => r.any (·.isSome))).filter
        (fun r => (r.getD j none).isSome)).length
      + (rows.filter (fun r => r.all (·.isNone))).length
      + (rows.filter (fun r => r.any (·.isSome) && (r.getD j none).isNone)).length
      = rows.length := by
  intro rows
  induction rows with
  | nil => rfl
  | cons r rs ih =>
    have hall := all_isNone_eq_not_any r
    by_cases h1 : (r.any (·.isSome)) = true
    · rw [h1] at hall
      by_cases h2 : ((r.getD j none).isSome) = true
      · have h2' : (r.getD j none).isNone = false := by
          cases hg : r.getD j none
          · rw [hg] at h2; simp at h2
          · rfl
        simp only [List.filter_cons, h1, h2, hall, h2', Bool.and_false, Bool.not_true,
          Bool.false_eq_true, if_false, if_true, List.length_cons]
        omega
      · have h2b : ((r.getD j none).isSome) = false := by
          rcases Bool.eq_false_or_eq_true ((r.getD j none).isSome) with hb | hb
          · exact absurd hb h2
          · exact hb
        have h2' : (r.getD j none).isNone = true := by
          cases hg : r.getD j none
          · rfl
          · rw [hg] at h2b; simp at h2b
        simp only [List.filter_cons, h1, h2b, hall, h2', Bool.and_true, Bool.not_true,
          Bool.false_eq_true, if_false, if_true, List.length_cons]
        omega
    · have h1b : (r.any (·.isSome)) = false := by
        rcases Bool.eq_false_or_eq_true (r.any (·.isSome)) with hb | hb
        · exact absurd hb h1
        · exact hb
      rw [h1b] at hall
      simp only [List.filter_cons, h1b, hall, Bool.false_and, Bool.not_false,
        Bool.false_eq_true, if_false, if_true, List.length_cons]
      omega

theorem itemsIdx_eq_none {cols : List ColLabel}
    (h : ColLabel.str "Items" ∉ cols) : itemsIdx cols = none := by
  induction cols with
  | nil => rfl
  | cons c cs ih =>
    rw [itemsIdx, if_neg (fun heq => h (by rw [heq]; simp)),
        ih (fun hm => h (by simp [hm]))]
    rfl

/-! ## Concrete evaluations used by several developments below -/

theorem eval_Items_none : is_month_column (ColLabel.str "Items") = none := by
  simp [is_month_column, pd_parse, pyStrip, cleanChars, compactSplit, full_date_match,
    dropDigits, dropAlpha, afterDay, afterMid, matchMid, matchYear, tokenize,
    tokensToEntries, resolveYMD, centurySpecified, digitsVal, charVal, monthFromName,
    monthNameTable, isSepChar]

theorem eval_May24 : is_month_column (ColLabel.str "May-24") = some ⟨2024, 5, 1⟩ := by
  have h := is_month_column_name_sep "May".data "24".data 5 2024 (by decide) (by decide)
    (by decide) (by decide) (by decide) (by decide) (by decide) (by decide)
  exact h

theorem eval_Jun24 : is_month_column (ColLabel.str "Jun-24") = some ⟨2024, 6, 1⟩ := by
  have h := is_month_column_name_sep "Jun".data "24".data 6 2024 (by decide) (by decide)
    (by decide) (by decide) (by decide) (by decide) (by decide) (by decide)
  exact h

/-! ## The claims -/

/-- Claim C1: for every calendar month (year, month) — with the year
rendered by four digits and, for the two-digit form, round-tripping
through the century rule — the four textual renderings "MMMYYYY"
(compact), "MMM-YY" (two-digit year), "01/MM/YYYY" (day-first full date)
and "MM-YYYY" (month-year) are all classified by the Cell Classifier
`is_month_column` to the identical Canonical Month Key
(year, month, day 1), regardless of the original textual form. -/
theorem C1_canonical_month_key (m y : Nat) (ys : List Char)
    (hm1 : 1 ≤ m) (hm2 : m ≤ 12)
    (hys : ∀ c ∈ ys, c.isDigit = true) (hylen : ys.length = 4)
    (hyval : digitsVal ys = y) (hylo : 1000 ≤ y) (hyhi : y ≤ 9999)
    (hcent : posixYear (y % 100) = y) :
    is_month_column (ColLabel.str (String.mk ((monthAbbrev m).data ++ ys))) =
        some ⟨y, m, 1⟩ ∧
    is_month_column (ColLabel.str
        (String.mk ((monthAbbrev m).data ++ '-' :: pad2 (y % 100)))) =
        some ⟨y, m, 1⟩ ∧
    is_month_column (ColLabel.str
        (String.mk ('0' :: '1' :: '/' :: (pad2 m ++ '/' :: ys)))) =
        some ⟨y, m, 1⟩ ∧
    is_month_column (ColLabel.str (String.mk (pad2 m ++ '-' :: ys))) =
        some ⟨y, m, 1⟩ := by
  obtain ⟨hna, hne, h3, h9, hmn⟩ := monthAbbrev_facts hm1 hm2
  have hydne : ys ≠ [] := by intro h; rw [h] at hylen; simp at hylen
  have hyfd : y = yearFromDigits ys := by
    rw [yearFromDigits, hylen, hyval]
    simp
  have hm99 : m ≤ 99 := by omega
  refine ⟨?_, ?_, ?_, ?_⟩
  · exact is_month_column_name_compact _ ys m y hna hne h3 h9 hmn hys hydne
      (by omega) (by omega) hyfd (by omega) hyhi
  · refine is_month_column_name_sep _ (pad2 (y % 100)) m y hna hne hmn
      (pad2_digits (by omega)) (pad2_ne _) ?_ (by omega) hyhi
    rw [yearFromDigits, pad2_val (show y % 100 ≤ 99 by omega), pad2_length]
    have hlt : ¬ 100 ≤ y % 100 := by omega
    simp [hlt]
    exact hcent.symm
  · have h := is_month_column_dmy '/' '/' (pad2 m) ys y (Or.inr rfl) (Or.inr rfl)
      (pad2_digits hm99) (pad2_length m)
      (by rw [pad2_val hm99]; omega) (by rw [pad2_val hm99]; omega)
      hys (by omega) (by omega) hyfd (by omega) hyhi
    rwa [pad2_val hm99] at h
  · have h := is_month_column_mY '-' (pad2 m) ys y (Or.inl rfl)
      (pad2_digits hm99) (pad2_length m)
      (by rw [pad2_val hm99]; omega) (by rw [pad2_val hm99]; omega)
      hys hylen hyval.symm (by omega) hyhi
    rwa [pad2_val hm99] at h

/-- Witness for C1 at the concrete month May 2024. -/
theorem C1_canonical_month_key_witness :
    ((1 ≤ 5 ∧ 5 ≤ 12) ∧ (∀ c ∈ ("2024".data : List Char), c.isDigit = true) ∧
      ("2024".data : List Char).length = 4 ∧ digitsVal "2024".data = 2024 ∧
      1000 ≤ 2024 ∧ 2024 ≤ 9999 ∧ posixYear (2024 % 100) = 2024) ∧
    (is_month_column (ColLabel.str
        (String.mk ((monthAbbrev 5).data ++ "2024".data))) = some ⟨2024, 5, 1⟩ ∧
     is_month_column (ColLabel.str
        (String.mk ((monthAbbrev 5).data ++ '-' :: pad2 (2024 % 100)))) =
        some ⟨2024, 5, 1⟩ ∧
     is_month_column (ColLabel.str
        (String.mk ('0' :: '1' :: '/' :: (pad2 5 ++ '/' :: "2024".data)))) =
        some ⟨2024, 5, 1⟩ ∧
     is_month_column (ColLabel.str (String.mk (pad2 5 ++ '-' :: "2024".data))) =
        some ⟨2024, 5, 1⟩) :=
  ⟨⟨⟨by decide, by decide⟩, by decide, by decide, by decide, by decide, by decide,
    by decide⟩,
   C1_canonical_month_key 5 2024 "2024".data (by decide) (by decide) (by decide)
     (by decide) (by decide) (by decide) (by decide) (by decide)⟩

/-- Claim C2 counterexample: "01/05/2024" — one of the spec's own examples
of a month label — is classified by the Cell Classifier as May 2024, but
the target-month parsing of `main` (which prepends "01-" to the raw input
and parses with default `dayfirst=False`, without the classifier's cleanup
and format dispatch) fails on the same string.  The two sides therefore do
not have identical parsing semantics. -/
theorem C2_counterexample :
    is_month_column (ColLabel.str "01/05/2024") = some ⟨2024, 5, 1⟩ ∧
    parse_target "01/05/2024" = none := by
  constructor
  · have h := is_month_column_dmy '/' '/' "05".data "2024".data 2024 (Or.inr rfl)
      (Or.inr rfl) (by decide) (by decide) (by decide) (by decide) (by decide)
      (by decide) (by decide) (by decide) (by decide) (by decide)
    exact h
  · simp [parse_target, pd_parse, pyStrip, tokenize, tokensToEntries, resolveYMD,
      centurySpecified, digitsVal, charVal, monthFromName, isSepChar]

/-- Claim C2, amended: on the documented target formats — a month name
followed by a 2-4 digit year, with or without a "-" separator (MMM-YY,
MMM-YYYY, MMMYY, MMMYYYY) — the target-month parsing of `main` and the
Cell Classifier agree exactly, both producing the Canonical Month Key. -/
theorem C2_documented_formats_agree (m : Nat) (ys : List Char)
    (hm1 : 1 ≤ m) (hm2 : m ≤ 12)
    (hys : ∀ c ∈ ys, c.isDigit = true) (hd2 : 2 ≤ ys.length) (hd4 : ys.length ≤ 4)
    (hy1 : 1 ≤ yearFromDigits ys) (hy2 : yearFromDigits ys ≤ 9999) :
    (parse_target (String.mk ((monthAbbrev m).data ++ '-' :: ys)) =
       is_month_column (ColLabel.str (String.mk ((monthAbbrev m).data ++ '-' :: ys))) ∧
     is_month_column (ColLabel.str (String.mk ((monthAbbrev m).data ++ '-' :: ys))) =
       some ⟨yearFromDigits ys, m, 1⟩) ∧
    (parse_target (String.mk ((monthAbbrev m).data ++ ys)) =
       is_month_column (ColLabel.str (String.mk ((monthAbbrev m).data ++ ys))) ∧
     is_month_column (ColLabel.str (String.mk ((monthAbbrev m).data ++ ys))) =
       some ⟨yearFromDigits ys, m, 1⟩) := by
  obtain ⟨hna, hne, h3, h9, hmn⟩ := monthAbbrev_facts hm1 hm2
  have hydne : ys ≠ [] := by intro h; rw [h] at hd2; simp at hd2
  have hsep := is_month_column_name_sep _ ys m (yearFromDigits ys) hna hne hmn hys
    hydne rfl hy1 hy2
  have hsepT := parse_target_name_sep _ ys m (yearFromDigits ys) hna hne hmn hys
    hydne rfl hy1 hy2
  have hcp := is_month_column_name_compact _ ys m (yearFromDigits ys) hna hne h3 h9
    hmn hys hydne hd2 hd4 rfl hy1 hy2
  have hcpT := parse_target_name_compact _ ys m (yearFromDigits ys) hna hne hmn hys
    hydne rfl hy1 hy2
  exact ⟨⟨by rw [hsep, hsepT], hsep⟩, ⟨by rw [hcp, hcpT], hcp⟩⟩

/-- Witness for the amended C2 at the concrete input "May-24" / "May24". -/
theorem C2_documented_formats_agree_witness :
    ((1 ≤ 5 ∧ 5 ≤ 12) ∧ (∀ c ∈ ("24".data : List Char), c.isDigit = true) ∧
      2 ≤ ("24".data : List Char).length ∧ ("24".data : List Char).length ≤ 4 ∧
      1 ≤ yearFromDigits "24".data ∧ yearFromDigits "24".data ≤ 9999) ∧
    ((parse_target (String.mk ((monthAbbrev 5).data ++ '-' :: "24".data)) =
        is_month_column (ColLabel.str
          (String.mk ((monthAbbrev 5).data ++ '-' :: "24".data))) ∧
      is_month_column (ColLabel.str
          (String.mk ((monthAbbrev 5).data ++ '-' :: "24".data))) =
        some ⟨yearFromDigits "24".data, 5, 1⟩) ∧
     (parse_target (String.mk ((monthAbbrev 5).data ++ "24".data)) =
        is_month_column (ColLabel.str
          (String.mk ((monthAbbrev 5).data ++ "24".data))) ∧
      is_month_column (ColLabel.str
          (String.mk ((monthAbbrev 5).data ++ "24".data))) =
        some ⟨yearFromDigits "24".data, 5, 1⟩)) :=
  ⟨⟨⟨by decide, by decide⟩, by decide, by decide, by decide, by decide, by decide⟩,
   C2_documented_formats_agree 5 "24".data (by decide) (by decide) (by decide)
     (by decide) (by decide) (by decide) (by decide)⟩

/-- Claim C6: the Cell Classifier is total — on every column label it
returns either NotAMonth (`none`, the caught-exception path) or a
day-1-normalized Canonical Month Key, and in particular the non-month
labels "Items", "Invoice number" and "Total" yield NotAMonth. -/
theorem C6_classifier_total :
    (∀ col : ColLabel, is_month_column col = none ∨
       ∃ y mo, is_month_column col = some ⟨y, mo, 1⟩) ∧
    is_month_column (ColLabel.str "Items") = none ∧
    is_month_column (ColLabel.str "Invoice number") = none ∧
    is_month_column (ColLabel.str "Total") = none := by
  refine ⟨?_, eval_Items_none, ?_, ?_⟩
  · intro col
    cases col with
    | dt d => exact Or.inr ⟨d.year, d.month, rfl⟩
    | str s =>
      simp only [is_month_column]
      split
      · next d _ => exact Or.inr ⟨d.year, d.month, rfl⟩
      · exact Or.inl rfl
  · simp [is_month_column, pd_parse, pyStrip, cleanChars, compactSplit, full_date_match,
      dropDigits, dropAlpha, afterDay, afterMid, matchMid, matchYear, tokenize,
      tokensToEntries, resolveYMD, centurySpecified, digitsVal, charVal, monthFromName,
      monthNameTable, isSepChar]
  · simp [is_month_column, pd_parse, pyStrip, cleanChars, compactSplit, full_date_match,
      dropDigits, dropAlpha, afterDay, afterMid, matchMid, matchYear, tokenize,
      tokensToEntries, resolveYMD, centurySpecified, digitsVal, charVal, monthFromName,
      monthNameTable, isSepChar]

/-- Claim C9 counterexample: under the century rule the code's parsing
library actually applies (the strptime rule: 00-68 to the 2000s, 69-99 to
the 1900s), the label "May-69" is classified to year 1969, whereas the
claimed rule "YY below 70 yields 2000+YY" would demand year 2069. -/
theorem C9_counterexample :
    is_month_column (ColLabel.str "May-69") = some ⟨1969, 5, 1⟩ ∧
    ¬ is_month_column (ColLabel.str "May-69") = some ⟨2069, 5, 1⟩ := by
  have h : is_month_column (ColLabel.str "May-69") = some ⟨1969, 5, 1⟩ := by
    have h := is_month_column_name_sep "May".data "69".data 5 1969 (by decide)
      (by decide) (by decide) (by decide) (by decide) (by decide) (by decide)
      (by decide)
    exact h
  refine ⟨h, ?_⟩
  rw [h]
  simp

/-- Claim C9, amended: for every two-digit year YY on a month-name label,
the Cell Classifier resolves the century by the strptime rule with cutoff
69: YY ≥ 69 yields 1900+YY and YY ≤ 68 yields 2000+YY ("May-24" → 2024,
"May-71" → 1971, but "May-69" → 1969, not 2069). -/
theorem C9_century_rule (m yy : Nat) (hm1 : 1 ≤ m) (hm2 : m ≤ 12) (hyy : yy ≤ 99) :
    is_month_column (ColLabel.str
        (String.mk ((monthAbbrev m).data ++ '-' :: pad2 yy))) =
      some ⟨posixYear yy, m, 1⟩ := by
  obtain ⟨hna, hne, h3, h9, hmn⟩ := monthAbbrev_facts hm1 hm2
  refine is_month_column_name_sep _ (pad2 yy) m (posixYear yy) hna hne hmn
    (pad2_digits hyy) (pad2_ne _) ?_ ?_ ?_
  · rw [yearFromDigits, pad2_val hyy, pad2_length]
    have hlt : ¬ 100 ≤ yy := by omega
    simp [hlt]
  · unfold posixYear; split <;> omega
  · unfold posixYear; split <;> omega

/-- Witness for the amended C9 at "May-71" (resolved to 1971) and the
claim's own example "May-24" (resolved to 2024). -/
theorem C9_century_rule_witness :
    ((1 ≤ 5 ∧ 5 ≤ 12) ∧ 71 ≤ 99 ∧ 24 ≤ 99) ∧
    is_month_column (ColLabel.str
        (String.mk ((monthAbbrev 5).data ++ '-' :: pad2 71))) =
      some ⟨posixYear 71, 5, 1⟩ ∧
    is_month_column (ColLabel.str
        (String.mk ((monthAbbrev 5).data ++ '-' :: pad2 24))) =
      some ⟨posixYear 24, 5, 1⟩ :=
  ⟨⟨⟨by decide, by decide⟩, by decide, by decide⟩,
   C9_century_rule 5 71 (by decide) (by decide) (by decide),
   C9_century_rule 5 24 (by decide) (by decide) (by decide)⟩

/-- Claim C3: the Header Locator returns the index of the first (topmost)
row in which some non-missing cell, lower-cased, contains one of the
substrings "items", "invoice", "amount" (that is exactly `rowMatches`),
and returns NotFound (`none`) precisely when no row of the grid matches. -/
theorem C3_header_locator (g : List (List (Option String))) (i : Nat) :
    (detect_header_row g = some i ↔
      ((∃ r, g[i]? = some r ∧ rowMatches r = true) ∧
        ∀ j, j < i → ∀ r, g[j]? = some r → rowMatches r = false)) ∧
    (detect_header_row g = none ↔ ∀ r ∈ g, rowMatches r = false) := by
  induction g generalizing i with
  | nil => simp [detect_header_row]
  | cons r rs ih =>
    rcases Bool.eq_false_or_eq_true (rowMatches r) with hr | hr
    · -- first row matches: the locator stops at index 0
      simp only [detect_header_row, hr, if_true]
      constructor
      · constructor
        · intro h
          injection h with h
          subst h
          exact ⟨⟨r, by simp, hr⟩, fun j hj => absurd hj (Nat.not_lt_zero j)⟩
        · rintro ⟨⟨row, hrow, hmat⟩, hmin⟩
          rcases Nat.eq_zero_or_pos i with rfl | hi
          · rfl
          · have h0 := hmin 0 hi r (by simp)
            rw [h0] at hr
            exact absurd hr (by simp)
      · constructor
        · intro h; exact absurd h (by simp)
        · intro hall
          have := hall r (by simp)
          rw [this] at hr
          exact absurd hr (by simp)
    · -- first row does not match: the locator shifts the tail result
      simp only [detect_header_row, hr, Bool.false_eq_true, if_false]
      constructor
      · constructor
        · intro h
          rw [Option.map_eq_some'] at h
          obtain ⟨i', hdi, hi⟩ := h
          subst hi
          obtain ⟨⟨row, hrow, hmat⟩, hmin⟩ := ((ih i').1).mp hdi
          refine ⟨⟨row, by simpa using hrow, hmat⟩, ?_⟩
          intro j hj r' hr'
          cases j with
          | zero =>
            simp only [List.getElem?_cons_zero, Option.some.injEq] at hr'
            rw [← hr']
            exact hr
          | succ j' =>
            exact hmin j' (by omega) r' (by simpa using hr')
        · rintro ⟨⟨row, hrow, hmat⟩, hmin⟩
          cases i with
          | zero =>
            simp only [List.getElem?_cons_zero, Option.some.injEq] at hrow
            rw [hrow] at hr
            rw [hmat] at hr
            exact absurd hr (by simp)
          | succ i' =>
            have hd : detect_header_row rs = some i' := by
              apply ((ih i').1).mpr
              refine ⟨⟨row, by simpa using hrow, hmat⟩, ?_⟩
              intro j hj r' hr'
              exact hmin (j + 1) (by omega) r' (by simpa using hr')
            rw [hd]
            rfl
      · constructor
        · intro h
          rw [Option.map_eq_none'] at h
          have := ((ih 0).2).mp h
          intro r' hr'
          rcases List.mem_cons.mp hr' with rfl | hmem
          · exact hr
          · exact this r' hmem
        · intro hall
          rw [Option.map_eq_none']
          exact ((ih 0).2).mpr (fun r' hm => hall r' (by simp [hm]))

/-- Claim C4 counterexample: on a table whose single row is entirely
empty, that row is counted both as a fully-empty row and as a row with an
empty item-name cell, so "rows after = original − fully-empty −
item-name-empty" double-subtracts: the normalizer leaves 0 rows, but the
claimed count is 1 − 1 − 1 = −1. -/
theorem C4_count_counterexample :
    normalize_table ⟨[ColLabel.str "Items"], [[none]]⟩ =
      Except.ok ⟨[ColLabel.str "Items"], []⟩ ∧
    itemsIdx [ColLabel.str "Items"] = some 0 ∧
    countFullyEmpty ⟨[ColLabel.str "Items"], [[none]]⟩ = 1 ∧
    countItemsEmpty ⟨[ColLabel.str "Items"], [[none]]⟩ 0 = 1 ∧
    ¬ ((([] : List (List (Option String))).length : Int) =
        (([[none]] : List (List (Option String))).length : Int)
          - (countFullyEmpty ⟨[ColLabel.str "Items"], [[none]]⟩ : Int)
          - (countItemsEmpty ⟨[ColLabel.str "Items"], [[none]]⟩ 0 : Int)) := by
  refine ⟨?_, ?_, ?_, ?_, ?_⟩ <;> decide

/-- Claim C4, amended: for every successfully normalized table, no
remaining row has an empty item-name cell, and the row count after
normalization equals the original row count minus the fully-empty rows
minus the rows that are not fully empty but have an empty item-name
cell (the two dropped classes are disjoint). -/
theorem C4_normalized_rows (t : Table) (j : Nat) (t' : Table)
    (hj : itemsIdx t.cols = some j) (h : normalize_table t = Except.ok t') :
    (∀ r ∈ t'.rows, (r.getD j none).isSome = true) ∧
    t'.rows.length =
      t.rows.length - countFullyEmpty t - countItemsEmptyNonBlank t j := by
  unfold normalize_table at h
  rw [hj] at h
  injection h with h
  subst h
  constructor
  · intro r hrm
    exact @List.of_mem_filter _ (fun r => (r.getD j none).isSome) r _ hrm
  · have hcs := count_split j t.rows
    simp only [countFullyEmpty, countItemsEmptyNonBlank]
    omega

/-- Witness for the amended C4 on a concrete three-row table: one kept
row, one fully-empty row, one summary row without an item name. -/
theorem C4_normalized_rows_witness :
    (itemsIdx [ColLabel.str "Items", ColLabel.str "Amount"] = some 0 ∧
     normalize_table ⟨[ColLabel.str "Items", ColLabel.str "Amount"],
        [[some "rent", some "5"], [none, none], [none, some "7"]]⟩ =
       Except.ok ⟨[ColLabel.str "Items", ColLabel.str "Amount"],
        [[some "rent", some "5"]]⟩) ∧
    ((∀ r ∈ (⟨[ColLabel.str "Items", ColLabel.str "Amount"],
          [[some "rent", some "5"]]⟩ : Table).rows,
        (r.getD 0 none).isSome = true) ∧
     (⟨[ColLabel.str "Items", ColLabel.str "Amount"],
          [[some "rent", some "5"]]⟩ : Table).rows.length =
       (⟨[ColLabel.str "Items", ColLabel.str "Amount"],
          [[some "rent", some "5"], [none, none], [none, some "7"]]⟩ : Table).rows.length
         - countFullyEmpty ⟨[ColLabel.str "Items", ColLabel.str "Amount"],
            [[some "rent", some "5"], [none, none], [none, some "7"]]⟩
         - countItemsEmptyNonBlank ⟨[ColLabel.str "Items", ColLabel.str "Amount"],
            [[some "rent", some "5"], [none, none], [none, some "7"]]⟩ 0) :=
  ⟨⟨by decide, by decide⟩,
   C4_normalized_rows _ 0 _ (by decide) (by decide)⟩

/-- Claim C5: the Month Range Resolver returns the pair (first, last) of
the month-classified column indices, every month-classified index lies
within that inclusive range, and with no month-classified columns it
fails (the ValueError) instead of returning a range. -/
theorem C5_month_range (cols : List ColLabel) :
    (month_indices cols = [] → parse_month_cols cols = Except.error ()) ∧
    (∀ lo hi, parse_month_cols cols = Except.ok (lo, hi) →
       month_indices cols ≠ [] ∧ ∀ i ∈ month_indices cols, lo ≤ i ∧ i ≤ hi) := by
  constructor
  · intro h
    unfold parse_month_cols
    rw [h]
  · intro lo hi h
    unfold parse_month_cols at h
    cases hmi : month_indices cols with
    | nil => rw [hmi] at h; exact absurd h (by simp)
    | cons a rest =>
      rw [hmi] at h
      injection h with h
      injection h with h1 h2
      subst h1
      subst h2
      have hsorted : List.Pairwise (· < ·) (a :: rest) := by
        rw [← hmi]
        exact (List.pairwise_lt_range _).filter _
      refine ⟨by simp, ?_⟩
      intro i him
      exact ⟨pairwise_head_le hsorted i him, pairwise_le_getLastD hsorted i him⟩

/-- Witness for C5 on a concrete header with two month columns. -/
theorem C5_month_range_witness :
    parse_month_cols [ColLabel.str "Items", ColLabel.str "May-24",
        ColLabel.str "Jun-24"] = Except.ok (1, 2) ∧
    (month_indices [ColLabel.str "Items", ColLabel.str "May-24",
        ColLabel.str "Jun-24"] ≠ [] ∧
      ∀ i ∈ month_indices [ColLabel.str "Items", ColLabel.str "May-24",
        ColLabel.str "Jun-24"], 1 ≤ i ∧ i ≤ 2) := by
  have hmi : month_indices [ColLabel.str "Items", ColLabel.str "May-24",
      ColLabel.str "Jun-24"] = [1, 2] := by
    simp [month_indices, show List.range 3 = [0, 1, 2] from rfl,
      eval_Items_none, eval_May24, eval_Jun24]
  have hok : parse_month_cols [ColLabel.str "Items", ColLabel.str "May-24",
      ColLabel.str "Jun-24"] = Except.ok (1, 2) := by
    unfold parse_month_cols
    rw [hmi]
    rfl
  exact ⟨hok, (C5_month_range _).2 1 2 hok⟩

/-- Claim C7 (the spec is the intent; the code is a slip): when no row of
the grid matches the header keywords, `read_excel_file` prints the
header-not-found message and returns `None`, but `main` does not check
the return value: it announces success and calls `parse_month_cols(df)`
with `df = None`, and the `df.columns` attribute access raises an
uncaught `AttributeError` — the pipeline crashes with an unrelated
exception instead of aborting cleanly. -/
theorem C7_header_not_found_crash :
    detect_header_row [[some "hello"], [some "world"]] = none ∧
    ∀ reload : Nat → Table,
      main_after_load (read_excel_file [[some "hello"], [some "world"]] reload) =
        MainOutcome.crashAttributeError := by
  constructor
  · decide
  · intro reload
    unfold read_excel_file
    rw [show detect_header_row [[some "hello"], [some "world"]] = none from by decide]
    rfl

/-- Claim C8: the label-rewrite pass (`parse_month_cols` acting on the
loaded table) leaves every row of cell data unchanged, and rewrites
exactly the classified labels: a label the Cell Classifier recognizes is
replaced in place by its Canonical Month Key (year, month, day 1); an
unrecognized label is left unchanged. -/
theorem C8_label_rewrite_frame (t : Table) (p : Nat × Nat) (t' : Table)
    (h : parse_month_cols_table t = Except.ok (p, t')) :
    t'.rows = t.rows ∧ t'.cols.length = t.cols.length ∧
    ∀ i, i < t.cols.length →
      ((∀ d, is_month_column (t.cols.getD i (ColLabel.str "")) = some d →
          t'.cols.getD i (ColLabel.str "") = ColLabel.dt d ∧ d.day = 1) ∧
       (is_month_column (t.cols.getD i (ColLabel.str "")) = none →
          t'.cols.getD i (ColLabel.str "") = t.cols.getD i (ColLabel.str ""))) := by
  unfold parse_month_cols_table at h
  cases hp : parse_month_cols t.cols with
  | error e => rw [hp] at h; exact absurd h (by simp)
  | ok q =>
    rw [hp] at h
    injection h with h
    injection h with h1 h2
    subst h2
    refine ⟨rfl, by simp, ?_⟩
    intro i hi
    have hget := getD_map_lt rewrite_label t.cols i hi (ColLabel.str "")
      (ColLabel.str "")
    constructor
    · intro d hd
      rw [hget, rewrite_label, hd]
      exact ⟨rfl, is_month_column_day_one hd⟩
    · intro hd
      rw [hget, rewrite_label, hd]

/-- Witness for C8 on a concrete table with one descriptive and one month
column. -/
theorem C8_label_rewrite_frame_witness :
    parse_month_cols_table ⟨[ColLabel.str "Items", ColLabel.str "May-24"],
        [[some "a", some "b"]]⟩ =
      Except.ok ((1, 1), ⟨[ColLabel.str "Items", ColLabel.dt ⟨2024, 5, 1⟩],
        [[some "a", some "b"]]⟩) ∧
    ((⟨[ColLabel.str "Items", ColLabel.dt ⟨2024, 5, 1⟩],
        [[some "a", some "b"]]⟩ : Table).rows =
      (⟨[ColLabel.str "Items", ColLabel.str "May-24"],
        [[some "a", some "b"]]⟩ : Table).rows ∧
     (⟨[ColLabel.str "Items", ColLabel.dt ⟨2024, 5, 1⟩],
        [[some "a", some "b"]]⟩ : Table).cols.length =
      (⟨[ColLabel.str "Items", ColLabel.str "May-24"],
        [[some "a", some "b"]]⟩ : Table).cols.length ∧
     ∀ i, i < (⟨[ColLabel.str "Items", ColLabel.str "May-24"],
        [[some "a", some "b"]]⟩ : Table).cols.length →
      ((∀ d, is_month_column ((⟨[ColLabel.str "Items", ColLabel.str "May-24"],
            [[some "a", some "b"]]⟩ : Table).cols.getD i (ColLabel.str "")) = some d →
          (⟨[ColLabel.str "Items", ColLabel.dt ⟨2024, 5, 1⟩],
            [[some "a", some "b"]]⟩ : Table).cols.getD i (ColLabel.str "") =
            ColLabel.dt d ∧ d.day = 1) ∧
       (is_month_column ((⟨[ColLabel.str "Items", ColLabel.str "May-24"],
            [[some "a", some "b"]]⟩ : Table).cols.getD i (ColLabel.str "")) = none →
          (⟨[ColLabel.str "Items", ColLabel.dt ⟨2024, 5, 1⟩],
            [[some "a", some "b"]]⟩ : Table).cols.getD i (ColLabel.str "") =
            (⟨[ColLabel.str "Items", ColLabel.str "May-24"],
            [[some "a", some "b"]]⟩ : Table).cols.getD i (ColLabel.str "")))) := by
  have hmi : month_indices [ColLabel.str "Items", ColLabel.str "May-24"] = [1] := by
    simp [month_indices, show List.range 2 = [0, 1] from rfl,
      eval_Items_none, eval_May24]
  have hok : parse_month_cols_table ⟨[ColLabel.str "Items", ColLabel.str "May-24"],
      [[some "a", some "b"]]⟩ =
      Except.ok ((1, 1), ⟨[ColLabel.str "Items", ColLabel.dt ⟨2024, 5, 1⟩],
        [[some "a", some "b"]]⟩) := by
    simp only [parse_month_cols_table, parse_month_cols, hmi]
    simp [rewrite_label, eval_Items_none, eval_May24]
  exact ⟨hok, C8_label_rewrite_frame _ (1, 1) _ hok⟩

/-- Claim C10: normalization succeeds only when the reloaded table has a
column labeled exactly "Items": for every table without that literal
label the normalizer raises (the pandas `KeyError` from
`dropna(subset=["Items"])`, re-raised by `read_excel_file`), instead of
returning a table or a distinct named error — even though header
detection can have matched on "invoice" or "amount" alone. -/
theorem C10_missing_items_keyerror (t : Table)
    (h : ColLabel.str "Items" ∉ t.cols) :
    normalize_table t = Except.error NormError.keyError := by
  unfold normalize_table
  rw [itemsIdx_eq_none h]

/-- Witness for C10: a header that detection accepts via "invoice" and
"amount" but that has no "Items" column. -/
theorem C10_missing_items_keyerror_witness :
    detect_header_row [[some "Invoice number", some "Amount"]] = some 0 ∧
    (ColLabel.str "Items" ∉
      ([ColLabel.str "Invoice number", ColLabel.str "Amount"] : List ColLabel)) ∧
    normalize_table ⟨[ColLabel.str "Invoice number", ColLabel.str "Amount"],
        [[some "1", some "2"]]⟩ = Except.error NormError.keyError :=
  ⟨by decide, by decide, C10_missing_items_keyerror _ (by decide)⟩

end AutoAmortize
